import Mathlib

/-!
Verification of the flecs C++ system-builder mixin
(`include/flecs/addons/cpp/mixins/system/builder_i.hpp`) and of the
scheduling core its specification describes (dependency-graph planning,
interval/rate throttling, dependency gating).

The builder surface is embedded directly from the source: `system_builder_i`
holds a pointer to an `ecs_system_desc_t` and either writes descriptor
fields or emits `ecs_add_id` calls against the world.  The world is embedded
as the list of `(entity, id)` pairs added so far; `ecs_ftime_t` (a C float)
is embedded as `ℚ`, and machine integers as `Nat`/`Int` (the builder only
stores them, never computes with them, so no overflow arises).

The planner and the per-tick scheduler/executor are not part of the sources
under verification (only the configuration surface is); they are modelled
from the specification where a claim needs them, and each such definition
says so in its doc comment.
-/

namespace flecs

/-- Entity identifier (`ecs_entity_t`, a 64-bit id); embedded as `Nat`.
The id `0` is the null entity. -/
abbrev entity_t := Nat

/-- Floating-point time value (`ecs_ftime_t`); embedded as `ℚ`. -/
abbrev ecs_ftime_t := ℚ

/-- Kind of relationship id the builder can attach to an entity:
`ecs_after(e)` marks an `after` edge target, `ecs_dependson(e)` a
`DependsOn` edge target. -/
inductive RelKind
  | after
  | dependsOn
deriving DecidableEq

/-- A component/relationship id as produced by `ecs_after` / `ecs_dependson`:
a relationship kind paired with its target entity. -/
structure EcsId where
  kind : RelKind
  target : entity_t
deriving DecidableEq

/-- Modelled from the spec: `ecs_after(e)` builds the id for an
"runs after `e`" relationship (the macro itself lives outside the verified
sources; the spec treats it as the constructor of the directed `after`
edge contribution). -/
def ecs_after (e : entity_t) : EcsId := ⟨RelKind.after, e⟩

/-- Modelled from the spec: `ecs_dependson(e)` builds the id for a
`DependsOn e` relationship (predecessor edge that additionally gates
execution). -/
def ecs_dependson (e : entity_t) : EcsId := ⟨RelKind.dependsOn, e⟩

/-- The world, restricted to what the builder mixin can observe of it: the
sequence of `(entity, id)` pairs added so far, most recent first. -/
structure World where
  ids : List (entity_t × EcsId)
deriving DecidableEq

/-- Modelled from the spec: `ecs_add_id(world, entity, id)` records the id
on the entity.  Entity/component storage is an external collaborator
(spec section 6) consumed as a plain add-id capability; it performs no
validation of its own. -/
def ecs_add_id (w : World) (e : entity_t) (i : EcsId) : World :=
  ⟨(e, i) :: w.ids⟩

/-- The system descriptor `ecs_system_desc_t`, restricted to the fields the
builder mixin writes.  `query`, `ctx` and `run` are opaque values (a query
descriptor, a user-data pointer and a callback pointer); they are embedded
as `Nat` tokens since the builder only stores them. -/
structure ecs_system_desc_t where
  entity : entity_t
  query : Nat
  multi_threaded : Bool
  no_readonly : Bool
  interval : ecs_ftime_t
  rate : Int
  tick_source : entity_t
  ctx : Nat
  run : Nat
deriving DecidableEq

/-- State visible to one `system_builder_i`: the descriptor it points to
(`m_desc`) and the world it adds ids to.  Every member function of the
mixin is embedded as a function `BuilderState → ... → BuilderState`;
returning the updated state corresponds to the C++ `return *this`. -/
structure BuilderState where
  m_desc : ecs_system_desc_t
  world : World
deriving DecidableEq

namespace system_builder_i

/-- Embeds `system_builder_i::depends_on(entity_t other)`: if `other` is non-zero,
add `ecs_dependson(other)` to the system entity; otherwise do nothing. -/
def depends_on (s : BuilderState) (other : entity_t) : BuilderState :=
  if other ≠ 0 then
    { s with world := ecs_add_id s.world s.m_desc.entity (ecs_dependson other) }
  else
    s

/-- Embeds `system_builder_i::after(entity_t other)`: if `other` is non-zero, add
`ecs_after(other)` to the system entity; otherwise do nothing. -/
def after (s : BuilderState) (other : entity_t) : BuilderState :=
  if other ≠ 0 then
    { s with world := ecs_add_id s.world s.m_desc.entity (ecs_after other) }
  else
    s

/-- Embeds `system_builder_i::before(entity_t other)`: if `other` is non-zero, add
`ecs_after(m_desc->entity)` to `other`; otherwise do nothing. -/
def before (s : BuilderState) (other : entity_t) : BuilderState :=
  if other ≠ 0 then
    { s with world := ecs_add_id s.world other (ecs_after s.m_desc.entity) }
  else
    s

/-- Embeds `system_builder_i::multi_threaded(bool value)`. -/
def multi_threaded (s : BuilderState) (value : Bool) : BuilderState :=
  { s with m_desc := { s.m_desc with multi_threaded := value } }

/-- Embeds `system_builder_i::no_readonly(bool value)`. -/
def no_readonly (s : BuilderState) (value : Bool) : BuilderState :=
  { s with m_desc := { s.m_desc with no_readonly := value } }

/-- Embeds `system_builder_i::interval(ecs_ftime_t interval)`. -/
def interval (s : BuilderState) (i : ecs_ftime_t) : BuilderState :=
  { s with m_desc := { s.m_desc with interval := i } }

/-- Embeds `system_builder_i::rate(const entity_t tick_source, int32_t rate)`:
the two-argument overload, writing both `rate` and `tick_source`. -/
def rate (s : BuilderState) (tick_source : entity_t) (r : Int) : BuilderState :=
  { s with m_desc := { s.m_desc with rate := r, tick_source := tick_source } }

/-- Embeds `system_builder_i::rate(int32_t rate)`: the one-argument overload,
writing only `rate`. -/
def rate' (s : BuilderState) (r : Int) : BuilderState :=
  { s with m_desc := { s.m_desc with rate := r } }

/-- Embeds `system_builder_i::tick_source(flecs::entity_t tick_source)`. -/
def tick_source (s : BuilderState) (ts : entity_t) : BuilderState :=
  { s with m_desc := { s.m_desc with tick_source := ts } }

/-- Embeds `system_builder_i::ctx(void *ptr)`. -/
def ctx (s : BuilderState) (ptr : Nat) : BuilderState :=
  { s with m_desc := { s.m_desc with ctx := ptr } }

/-- Embeds `system_builder_i::run(ecs_iter_action_t action)`. -/
def run (s : BuilderState) (action : Nat) : BuilderState :=
  { s with m_desc := { s.m_desc with run := action } }

end system_builder_i

/-- Modelled from the spec: the input of the Pipeline Planner (spec
sections 4.1 and 4.2, not present under the verified sources).  `nodes`
lists the live systems in registration order; `(a, b)` in `edges` means
"`a` must run before `b`", the combined edge set derived from phase order
and the explicit `after`/`before`/`depends_on` declarations (a declaration
`after(other)` by system `s` contributes the pair `(other, s)`). -/
structure Graph where
  nodes : List entity_t
  edges : List (entity_t × entity_t)

/-- Modelled from the spec: errors of plan compilation (spec section 7).
`cyclicDependency` carries the systems participating in the cycle. -/
inductive PlanError
  | cyclicDependency (systems : List entity_t)
deriving DecidableEq

/-- A node is ready when no remaining node must run before it. -/
def ready (g : Graph) (rem : List entity_t) (n : entity_t) : Bool :=
  rem.all (fun m => !(decide ((m, n) ∈ g.edges)))

/-- Modelled from the spec: one layering pass of the Pipeline Planner.
Each round takes, in registration order, every remaining system none of
whose predecessors remain, and emits them as the next stage; if systems
remain but none is ready the edge set is cyclic and compilation fails with
`cyclicDependency` naming the remaining (cycle-participating) systems.
`fuel` bounds the number of rounds; `compile` supplies `nodes.length`,
which suffices since every successful round removes at least one node. -/
def compileAux (g : Graph) : Nat → List entity_t → Except PlanError (List (List entity_t))
  | _, [] => Except.ok []
  | 0, c :: l => Except.error (PlanError.cyclicDependency (c :: l))
  | fuel + 1, c :: l =>
    if ((c :: l).filter (ready g (c :: l))).isEmpty then
      Except.error (PlanError.cyclicDependency (c :: l))
    else
      match compileAux g fuel ((c :: l).filter (fun n => !(ready g (c :: l) n))) with
      | Except.ok stages => Except.ok ((c :: l).filter (ready g (c :: l)) :: stages)
      | Except.error e => Except.error e

/-- Modelled from the spec: plan compilation (spec section 4.2) — a
deterministic topological layering of the dependency graph into the
ordered sequence of stages, or a `cyclicDependency` error.  Ties are
broken by registration order: every stage lists its systems in the order
of `g.nodes`. -/
def compile (g : Graph) : Except PlanError (List (List entity_t)) :=
  compileAux g g.nodes.length g.nodes

/-- Modelled from the spec: the per-system, per-tick execution states of
the Scheduler/Executor state machine (spec section 4.3). -/
inductive SysState
  | Pending
  | Skipped
  | Eligible
  | Ran
  | Failed
deriving DecidableEq

/-- Modelled from the spec: the throttling-relevant slice of one system's
descriptor as the Scheduler/Executor sees it (spec sections 3 and 4.3):
optional interval, optional rate (against its tick source's counter), and
the set of `depends_on` predecessors. -/
structure SysConfig where
  id : entity_t
  interval : Option ℚ
  rate : Option Nat
  dependsOn : List entity_t

/-- Modelled from the spec: per-system timer state — the interval
accumulator and the tick source's counter this system rates against
(the counter increments once per tick; spec section 3). -/
structure SysTimer where
  acc : ℚ
  tickCount : Nat
deriving DecidableEq

/-- Interval gating: blocked while accumulated time (including this tick's
delta) has not yet reached the interval. -/
def intervalBlocked (cfg : SysConfig) (t : SysTimer) (delta : ℚ) : Bool :=
  match cfg.interval with
  | some i => decide (t.acc + delta < i)
  | none => false

/-- Rate gating: blocked unless the tick source's counter (after this
tick's increment) is a multiple of the rate. -/
def rateBlocked (cfg : SysConfig) (t : SysTimer) : Bool :=
  match cfg.rate with
  | some r => decide ((t.tickCount + 1) % r ≠ 0)
  | none => false

/-- A state that gates dependents: `Skipped` or `Failed`. -/
def isBlockedState : SysState → Bool
  | SysState.Skipped => true
  | SysState.Failed => true
  | _ => false

/-- Dependency gating: blocked when some `depends_on` predecessor is
`Skipped` or `Failed` this tick. -/
def depBlocked (cfg : SysConfig) (states : entity_t → SysState) : Bool :=
  cfg.dependsOn.any (fun d => isBlockedState (states d))

/-- The interval subtracted from the accumulator when the system runs
(zero when no interval is configured). -/
def usedInterval (cfg : SysConfig) : ℚ :=
  match cfg.interval with
  | some i => i
  | none => 0

/-- Modelled from the spec: one system's transition of the per-tick state
machine (spec section 4.3).  `Pending → Skipped` when the interval has not
elapsed, the rate-gated count is not reached, or a `depends_on`
predecessor is itself `Skipped`/`Failed` this tick; otherwise
`Pending → Eligible → Ran` (or `Failed` when the callback reports an
error).  The accumulator always gains this tick's delta and, on `Ran`
only, loses the interval — subtraction, not zeroing, so the fractional
overshoot is preserved; the tick source's counter increments every tick. -/
def evalSystem (cfg : SysConfig) (t : SysTimer) (delta : ℚ)
    (states : entity_t → SysState) (cbOk : Bool) : SysState × SysTimer :=
  if intervalBlocked cfg t delta || rateBlocked cfg t || depBlocked cfg states then
    (SysState.Skipped, ⟨t.acc + delta, t.tickCount + 1⟩)
  else if cbOk then
    (SysState.Ran, ⟨t.acc + delta - usedInterval cfg, t.tickCount + 1⟩)
  else
    (SysState.Failed, ⟨t.acc + delta, t.tickCount + 1⟩)

/-- The scheduler's view of one tick in flight: the states assigned so far
this tick (systems not yet evaluated are `Pending`) and the timers. -/
structure TickResult where
  states : entity_t → SysState
  timers : entity_t → SysTimer

/-- Evaluate one system and record its state and updated timer. -/
def tickStep (delta : ℚ) (cb : entity_t → Bool) (r : TickResult) (cfg : SysConfig) : TickResult :=
  let st := evalSystem cfg (r.timers cfg.id) delta r.states (cb cfg.id)
  ⟨fun e => if e = cfg.id then st.1 else r.states e,
   fun e => if e = cfg.id then st.2 else r.timers e⟩

/-- Modelled from the spec: one tick of the Scheduler/Executor (spec
section 4.3, not present under the verified sources).  All states reset to
`Pending`, then the systems are evaluated in plan order (dependencies
before dependents), each observing the states already assigned this
tick. -/
def runTick (systems : List SysConfig) (timers : entity_t → SysTimer)
    (delta : ℚ) (cb : entity_t → Bool) : TickResult :=
  systems.foldl (tickStep delta cb) ⟨fun _ => SysState.Pending, timers⟩

/-- Timer state after `n` ticks of constant delta, from zeroed timers. -/
def timersAfter (systems : List SysConfig) (delta : ℚ) (cb : entity_t → Bool) :
    Nat → (entity_t → SysTimer)
  | 0 => fun _ => ⟨0, 0⟩
  | n + 1 => (runTick systems (timersAfter systems delta cb n) delta cb).timers

/-- State of entity `e` on tick `n` (ticks are numbered from 1) when the
systems tick with constant delta. -/
def stateOnTick (systems : List SysConfig) (delta : ℚ) (cb : entity_t → Bool)
    (n : Nat) (e : entity_t) : SysState :=
  (runTick systems (timersAfter systems delta cb (n - 1)) delta cb).states e

/-- A fresh descriptor for entity `e`, all other fields zero-initialised
(as `ecs_system_desc_t desc = {}` does before the builder runs). -/
def sampleDesc (e : entity_t) : ecs_system_desc_t :=
  ⟨e, 0, false, false, 0, 0, 0, 0, 0⟩

/-- A world with no ids added yet. -/
def emptyWorld : World := ⟨[]⟩

/-- A system with `interval = 1.0` and no other gating (spec section 8's
interval-throttling scenario). -/
def intervalSys : SysConfig := ⟨1, some 1, none, []⟩

/-- A system with `rate = 3` against a tick source incrementing once per
tick, and no other gating (spec section 8's rate-throttling scenario). -/
def rate3Sys : SysConfig := ⟨1, none, some 3, []⟩

/-- A system gated by `rate = 2` (so it is `Skipped` on the first tick). -/
def depSysA : SysConfig := ⟨1, none, some 2, []⟩

/-- A system with a `depends_on` edge to `depSysA` and no gating of its
own. -/
def depSysB : SysConfig := ⟨2, none, none, [1]⟩

section Theorems

open system_builder_i

/-- C1: for every system entity `S` and every non-zero entity `X`,
`before(X)` on the builder for `S` has the same effect as `after(S)` on a
builder for `X` over the same world: both add exactly the one directed
`after` edge with predecessor `S` on the successor entity `X`. -/
theorem before_after_same_edge (sS sX : BuilderState) (S X : entity_t)
    (hS : sS.m_desc.entity = S) (hX : sX.m_desc.entity = X)
    (hw : sS.world = sX.world) (hS0 : S ≠ 0) (hX0 : X ≠ 0) :
    (before sS X).world = (after sX S).world ∧
    (before sS X).world = ecs_add_id sS.world X (ecs_after S) := by
  subst hS hX
  simp [before, after, hS0, hX0, hw]

/-- Witness for C1 at `S = 1`, `X = 2` over the empty world. -/
theorem before_after_same_edge_witness :
    (before ⟨sampleDesc 1, emptyWorld⟩ 2).world
      = (after ⟨sampleDesc 2, emptyWorld⟩ 1).world ∧
    (before ⟨sampleDesc 1, emptyWorld⟩ 2).world
      = ecs_add_id emptyWorld 2 (ecs_after 1) :=
  before_after_same_edge ⟨sampleDesc 1, emptyWorld⟩ ⟨sampleDesc 2, emptyWorld⟩
    1 2 rfl rfl rfl (by decide) (by decide)

/-- C2 counterexample: declaring a self-edge is not rejected and does not
leave the declared edge set unchanged — `after(5)` on the builder for
entity `5` changes the world (it adds the self-edge). -/
theorem self_edge_changes_world :
    (after ⟨sampleDesc 5, emptyWorld⟩ 5).world
      ≠ (⟨sampleDesc 5, emptyWorld⟩ : BuilderState).world := by
  decide

/-- C2 as amended: for every builder whose system entity is non-zero,
declaring a self-edge via `after`, `before` or `depends_on` is accepted
like any other edge — the builder adds the self-edge to the world, leaves
the descriptor unchanged, and returns normally; no rejection happens at
edge-declaration time. -/
theorem self_edge_added (s : BuilderState) (h : s.m_desc.entity ≠ 0) :
    after s s.m_desc.entity
      = { s with world := ecs_add_id s.world s.m_desc.entity (ecs_after s.m_desc.entity) } ∧
    before s s.m_desc.entity
      = { s with world := ecs_add_id s.world s.m_desc.entity (ecs_after s.m_desc.entity) } ∧
    depends_on s s.m_desc.entity
      = { s with world := ecs_add_id s.world s.m_desc.entity (ecs_dependson s.m_desc.entity) } := by
  simp [after, before, depends_on, h]

/-- Witness for the amended C2 at the builder for entity `5` over the
empty world. -/
theorem self_edge_added_witness :
    after ⟨sampleDesc 5, emptyWorld⟩ 5
      = { m_desc := sampleDesc 5, world := ecs_add_id emptyWorld 5 (ecs_after 5) } ∧
    before ⟨sampleDesc 5, emptyWorld⟩ 5
      = { m_desc := sampleDesc 5, world := ecs_add_id emptyWorld 5 (ecs_after 5) } ∧
    depends_on ⟨sampleDesc 5, emptyWorld⟩ 5
      = { m_desc := sampleDesc 5, world := ecs_add_id emptyWorld 5 (ecs_dependson 5) } :=
  self_edge_added ⟨sampleDesc 5, emptyWorld⟩ (by decide)

/-- C8: each descriptor setter writes exactly its designated field(s) to
the supplied value, leaves every other descriptor field unchanged, leaves
the world untouched, and only returns the updated builder state. -/
theorem setters_write_only_their_field (s : BuilderState) (b b' : Bool)
    (i : ecs_ftime_t) (r : Int) (ts : entity_t) (p a : Nat) :
    multi_threaded s b = ⟨{ s.m_desc with multi_threaded := b }, s.world⟩ ∧
    no_readonly s b' = ⟨{ s.m_desc with no_readonly := b' }, s.world⟩ ∧
    interval s i = ⟨{ s.m_desc with interval := i }, s.world⟩ ∧
    rate' s r = ⟨{ s.m_desc with rate := r }, s.world⟩ ∧
    rate s ts r = ⟨{ s.m_desc with rate := r, tick_source := ts }, s.world⟩ ∧
    tick_source s ts = ⟨{ s.m_desc with tick_source := ts }, s.world⟩ ∧
    ctx s p = ⟨{ s.m_desc with ctx := p }, s.world⟩ ∧
    run s a = ⟨{ s.m_desc with run := a }, s.world⟩ :=
  ⟨rfl, rfl, rfl, rfl, rfl, rfl, rfl, rfl⟩

/-- C9: `depends_on(0)`, `after(0)` and `before(0)` with the null entity
are silent no-ops: descriptor and world are unchanged and the builder
state is returned as-is, so chaining continues. -/
theorem null_entity_noop (s : BuilderState) :
    depends_on s 0 = s ∧ after s 0 = s ∧ before s 0 = s := by
  refine ⟨?_, ?_, ?_⟩ <;> simp [depends_on, after, before]

/-- C10: the one-argument `rate(r)` overload writes only the `rate` field
(in particular `tick_source` is untouched), while the two-argument
`rate(tick_source, r)` overload writes both `rate` and `tick_source`;
neither touches any other field or the world. -/
theorem rate_overloads_frame (s : BuilderState) (ts : entity_t) (r : Int) :
    rate' s r = ⟨{ s.m_desc with rate := r }, s.world⟩ ∧
    rate s ts r = ⟨{ s.m_desc with rate := r, tick_source := ts }, s.world⟩ :=
  ⟨rfl, rfl⟩

/-- The timer produced by one evaluation of a system with no interval:
the accumulator gains the delta and the tick counter increments, in every
branch of the state machine. -/
theorem evalSystem_timer_of_no_interval (cfg : SysConfig) (t : SysTimer) (delta : ℚ)
    (states : entity_t → SysState) (cbOk : Bool) (h : cfg.interval = none) :
    (evalSystem cfg t delta states cbOk).2 = ⟨t.acc + delta, t.tickCount + 1⟩ := by
  unfold evalSystem
  split_ifs <;> simp [usedInterval, h]

/-- Evaluating a one-system plan probes exactly that system. -/
theorem runTick_singleton_states (cfg : SysConfig) (timers : entity_t → SysTimer)
    (delta : ℚ) (cb : entity_t → Bool) (e : entity_t) (he : e = cfg.id) :
    (runTick [cfg] timers delta cb).states e
      = (evalSystem cfg (timers e) delta (fun _ => SysState.Pending) (cb e)).1 := by
  simp [runTick, tickStep, he]

/-- After `n` ticks of the rate-3 system alone, its accumulator is `n` and
its tick source's counter is `n`. -/
theorem timersAfter_rate3 (n : Nat) :
    timersAfter [rate3Sys] 1 (fun _ => true) n 1 = ⟨(n : ℚ), n⟩ := by
  induction n with
  | zero => simp [timersAfter]
  | succ k ih =>
      simp only [timersAfter, runTick, List.foldl_cons, List.foldl_nil, tickStep]
      rw [show rate3Sys.id = 1 from rfl]
      simp only [if_pos rfl]
      rw [evalSystem_timer_of_no_interval _ _ _ _ _ rfl, ih]
      simp

/-- C5: a system with `rate = 3` against a tick source whose counter
increments once per tick runs exactly on ticks 3, 6, 9, … (the multiples
of 3) and is `Skipped` on every other tick. -/
theorem rate_three_schedule (n : Nat) (h : 1 ≤ n) :
    stateOnTick [rate3Sys] 1 (fun _ => true) n 1
      = if n % 3 = 0 then SysState.Ran else SysState.Skipped := by
  unfold stateOnTick
  rw [runTick_singleton_states _ _ _ _ 1 rfl, timersAfter_rate3]
  have hn : n - 1 + 1 = n := Nat.succ_pred_eq_of_pos h
  by_cases h3 : n % 3 = 0 <;>
    simp [evalSystem, intervalBlocked, rateBlocked, depBlocked, usedInterval,
      rate3Sys, hn, h3]

/-- Witness for C5 at tick 3 (a multiple of 3, so the system runs). -/
theorem rate_three_schedule_witness :
    1 ≤ 3 ∧
    stateOnTick [rate3Sys] 1 (fun _ => true) 3 1
      = if 3 % 3 = 0 then SysState.Ran else SysState.Skipped :=
  ⟨by decide, rate_three_schedule 3 (by decide)⟩

/-- C6: a system with `interval = 1.0` ticked with deltas
`0.4, 0.4, 0.4` is skipped on the first two ticks, runs exactly once on
the third tick (accumulator `1.2 ≥ 1.0`), and after that run its
accumulator is `0.2` — the interval is subtracted, not zeroed, so no
elapsed time is lost. -/
theorem interval_remainder_preserved :
    stateOnTick [intervalSys] (2/5) (fun _ => true) 1 1 = SysState.Skipped ∧
    stateOnTick [intervalSys] (2/5) (fun _ => true) 2 1 = SysState.Skipped ∧
    stateOnTick [intervalSys] (2/5) (fun _ => true) 3 1 = SysState.Ran ∧
    (timersAfter [intervalSys] (2/5) (fun _ => true) 3) 1 = ⟨1/5, 3⟩ := by
  refine ⟨?_, ?_, ?_, ?_⟩ <;>
    ·  simp [stateOnTick, timersAfter, runTick, tickStep, evalSystem, intervalBlocked,
        rateBlocked, depBlocked, intervalSys, usedInterval]
       norm_num

/-- A tick evaluation never touches the recorded state of an entity whose
id is not among the evaluated systems. -/
theorem foldl_tickStep_states_frame (delta : ℚ) (cb : entity_t → Bool)
    (l : List SysConfig) (r : TickResult) (e : entity_t)
    (h : e ∉ l.map SysConfig.id) :
    (l.foldl (tickStep delta cb) r).states e = r.states e := by
  induction l generalizing r with
  | nil => rfl
  | cons c l ih =>
      simp only [List.map_cons, List.mem_cons] at h
      push_neg at h
      simp only [List.foldl_cons]
      rw [ih _ (by simpa using h.2)]
      simp [tickStep, h.1]

/-- C4: on any tick, a system `B` with a `depends_on` edge to `A` is
`Skipped` whenever `A` ended that tick `Skipped` or `Failed`, regardless
of `B`'s own interval and rate gating (the systems are evaluated in plan
order, so `A` precedes `B`, and their ids are distinct). -/
theorem depends_on_skip_propagates
    (pre mid post : List SysConfig) (A B : SysConfig)
    (timers : entity_t → SysTimer) (delta : ℚ) (cb : entity_t → Bool)
    (hnd : ((pre ++ A :: mid ++ B :: post).map SysConfig.id).Nodup)
    (hdep : A.id ∈ B.dependsOn)
    (hA : (runTick (pre ++ A :: mid ++ B :: post) timers delta cb).states A.id
            = SysState.Skipped
        ∨ (runTick (pre ++ A :: mid ++ B :: post) timers delta cb).states A.id
            = SysState.Failed) :
    (runTick (pre ++ A :: mid ++ B :: post) timers delta cb).states B.id
      = SysState.Skipped := by
  have hmap : (pre ++ A :: mid ++ B :: post).map SysConfig.id
      = pre.map SysConfig.id ++ A.id :: (mid ++ B :: post).map SysConfig.id := by
    simp
  rw [hmap] at hnd
  have htail : (A.id :: (mid ++ B :: post).map SysConfig.id).Nodup :=
    hnd.of_append_right
  have hArest : A.id ∉ (mid ++ B :: post).map SysConfig.id :=
    (List.nodup_cons.mp htail).1
  have hAmid : A.id ∉ mid.map SysConfig.id := by
    intro hc
    exact hArest (by simp [hc])
  have hBpost : B.id ∉ post.map SysConfig.id := by
    have h1 : ((mid ++ B :: post).map SysConfig.id).Nodup := (List.nodup_cons.mp htail).2
    have h2 : (B.id :: post.map SysConfig.id).Nodup := by
      rw [List.map_append] at h1
      exact h1.of_append_right
    exact (List.nodup_cons.mp h2).1
  have hsplit : ∀ e, (runTick (pre ++ A :: mid ++ B :: post) timers delta cb).states e
      = ((mid ++ B :: post).foldl (tickStep delta cb)
          (tickStep delta cb (pre.foldl (tickStep delta cb)
            ⟨fun _ => SysState.Pending, timers⟩) A)).states e := by
    intro e
    simp [runTick, List.foldl_append]
  set r2 : TickResult := tickStep delta cb
    (pre.foldl (tickStep delta cb) ⟨fun _ => SysState.Pending, timers⟩) A with hr2
  set r3 : TickResult := mid.foldl (tickStep delta cb) r2 with hr3
  have hAfinal : (runTick (pre ++ A :: mid ++ B :: post) timers delta cb).states A.id
      = r2.states A.id := by
    rw [hsplit A.id]
    exact foldl_tickStep_states_frame delta cb _ _ _ hArest
  have hA3 : r3.states A.id = r2.states A.id :=
    foldl_tickStep_states_frame delta cb mid r2 A.id hAmid
  have hAblocked : isBlockedState (r3.states A.id) = true := by
    rw [hA3, ← hAfinal]
    rcases hA with h | h <;> rw [h] <;> rfl
  have hdb : depBlocked B r3.states = true := by
    unfold depBlocked
    rw [List.any_eq_true]
    exact ⟨A.id, hdep, hAblocked⟩
  have hBfinal : (runTick (pre ++ A :: mid ++ B :: post) timers delta cb).states B.id
      = (tickStep delta cb r3 B).states B.id := by
    rw [hsplit B.id]
    have : (mid ++ B :: post).foldl (tickStep delta cb) r2
        = post.foldl (tickStep delta cb) (tickStep delta cb r3 B) := by
      simp [List.foldl_append, hr3]
    rw [this]
    exact foldl_tickStep_states_frame delta cb post _ B.id hBpost
  rw [hBfinal]
  simp [tickStep, evalSystem, hdb]

/-- Witness for C4: `depSysA` (rate 2) is `Skipped` on the first tick, and
`depSysB`, which depends on it and has no gating of its own, is therefore
`Skipped` as well. -/
theorem depends_on_skip_propagates_witness :
    ((([] : List SysConfig) ++ depSysA :: [] ++ depSysB :: []).map SysConfig.id).Nodup ∧
    depSysA.id ∈ depSysB.dependsOn ∧
    (runTick ([] ++ depSysA :: [] ++ depSysB :: []) (fun _ => ⟨0, 0⟩) 1
        (fun _ => true)).states depSysA.id = SysState.Skipped ∧
    (runTick ([] ++ depSysA :: [] ++ depSysB :: []) (fun _ => ⟨0, 0⟩) 1
        (fun _ => true)).states depSysB.id = SysState.Skipped :=
  ⟨by decide, by decide, by decide,
    depends_on_skip_propagates [] [] [] depSysA depSysB (fun _ => ⟨0, 0⟩) 1
      (fun _ => true) (by decide) (by decide) (Or.inl (by decide))⟩

/-- A node with a remaining predecessor is not ready. -/
theorem ready_eq_false_of_pred_mem (g : Graph) (rem : List entity_t) (m n : entity_t)
    (hm : m ∈ rem) (he : (m, n) ∈ g.edges) : ready g rem n = false := by
  refine Bool.eq_false_iff.mpr ?_
  intro hall
  rw [ready, List.all_eq_true] at hall
  have := hall m hm
  simp [he] at this

/-- Two nodes each of which must run before the other are never removed by
the layering passes, so compilation of any remaining set containing both
ends in a `cyclicDependency` error naming both. -/
theorem compileAux_mutual_cycle (g : Graph) (A B : entity_t)
    (hAB : (A, B) ∈ g.edges) (hBA : (B, A) ∈ g.edges) :
    ∀ fuel rem, A ∈ rem → B ∈ rem →
      ∃ cyc, compileAux g fuel rem = Except.error (PlanError.cyclicDependency cyc)
        ∧ A ∈ cyc ∧ B ∈ cyc := by
  intro fuel
  induction fuel with
  | zero =>
      intro rem hA hB
      cases rem with
      | nil => cases hA
      | cons c l => exact ⟨c :: l, rfl, hA, hB⟩
  | succ k ih =>
      intro rem hA hB
      have hrA : ready g rem A = false := ready_eq_false_of_pred_mem g rem B A hB hBA
      have hrB : ready g rem B = false := ready_eq_false_of_pred_mem g rem A B hA hAB
      cases rem with
      | nil => cases hA
      | cons c l =>
          rw [compileAux]
          by_cases hstage : ((c :: l).filter (ready g (c :: l))).isEmpty
          · simp only [hstage, if_true]
            exact ⟨c :: l, rfl, hA, hB⟩
          · simp only [hstage, if_false]
            have hA' : A ∈ (c :: l).filter (fun n => !(ready g (c :: l) n)) :=
              List.mem_filter.mpr ⟨hA, by simp [hrA]⟩
            have hB' : B ∈ (c :: l).filter (fun n => !(ready g (c :: l) n)) :=
              List.mem_filter.mpr ⟨hB, by simp [hrB]⟩
            obtain ⟨cyc, heq, hAc, hBc⟩ := ih _ hA' hB'
            rw [heq]
            exact ⟨cyc, rfl, hAc, hBc⟩

/-- C3: if system `A` declares `after(B)` and system `B` declares
`after(A)` (so the edge set contains both "B before A" and "A before B"),
plan compilation fails with a `cyclicDependency` error naming both `A`
and `B`; no plan — partial or otherwise — is produced. -/
theorem mutual_after_is_cyclic (g : Graph) (A B : entity_t)
    (hA : A ∈ g.nodes) (hB : B ∈ g.nodes)
    (hAB : (A, B) ∈ g.edges) (hBA : (B, A) ∈ g.edges) :
    ∃ cyc, compile g = Except.error (PlanError.cyclicDependency cyc)
      ∧ A ∈ cyc ∧ B ∈ cyc :=
  compileAux_mutual_cycle g A B hAB hBA g.nodes.length g.nodes hA hB

/-- Witness for C3 on the two-system graph where each runs after the
other. -/
theorem mutual_after_is_cyclic_witness :
    1 ∈ (Graph.mk [1, 2] [(1, 2), (2, 1)]).nodes ∧
    2 ∈ (Graph.mk [1, 2] [(1, 2), (2, 1)]).nodes ∧
    (1, 2) ∈ (Graph.mk [1, 2] [(1, 2), (2, 1)]).edges ∧
    (2, 1) ∈ (Graph.mk [1, 2] [(1, 2), (2, 1)]).edges ∧
    ∃ cyc, compile (Graph.mk [1, 2] [(1, 2), (2, 1)])
        = Except.error (PlanError.cyclicDependency cyc) ∧ 1 ∈ cyc ∧ 2 ∈ cyc :=
  ⟨by decide, by decide, by decide, by decide,
    mutual_after_is_cyclic (Graph.mk [1, 2] [(1, 2), (2, 1)]) 1 2
      (by decide) (by decide) (by decide) (by decide)⟩

/-- Readiness depends only on which edges exist, not on the order the edge
list happens to be iterated in. -/
theorem ready_congr (g1 g2 : Graph) (he : ∀ e, e ∈ g1.edges ↔ e ∈ g2.edges)
    (rem : List entity_t) : ready g1 rem = ready g2 rem := by
  funext n
  unfold ready
  have : (fun m => !(decide ((m, n) ∈ g1.edges)))
      = (fun m => !(decide ((m, n) ∈ g2.edges))) := by
    funext m
    rw [decide_eq_decide.mpr (he (m, n))]
  rw [this]

/-- The layering passes agree on graphs with the same edge set. -/
theorem compileAux_congr (g1 g2 : Graph) (he : ∀ e, e ∈ g1.edges ↔ e ∈ g2.edges) :
    ∀ fuel rem, compileAux g1 fuel rem = compileAux g2 fuel rem := by
  intro fuel
  induction fuel with
  | zero => intro rem; cases rem <;> rfl
  | succ k ih =>
      intro rem
      cases rem with
      | nil => rfl
      | cons c l =>
          rw [compileAux, compileAux, ready_congr g1 g2 he, ih]

/-- Every stage keeps its systems in registration order: it is a sublist
of the remaining-node list compilation started from. -/
theorem compileAux_stages_sublist (g : Graph) :
    ∀ fuel rem stages, compileAux g fuel rem = Except.ok stages →
      ∀ st ∈ stages, st.Sublist rem := by
  intro fuel
  induction fuel with
  | zero =>
      intro rem stages h st hst
      cases rem with
      | nil =>
          cases h
          cases hst
      | cons c l => cases h
  | succ k ih =>
      intro rem stages h st hst
      cases rem with
      | nil =>
          cases h
          cases hst
      | cons c l =>
          rw [compileAux] at h
          by_cases hstage : ((c :: l).filter (ready g (c :: l))).isEmpty
          · rw [if_pos hstage] at h
            cases h
          · rw [if_neg hstage] at h
            cases heq : compileAux g k ((c :: l).filter (fun n => !(ready g (c :: l) n))) with
            | error e => rw [heq] at h; cases h
            | ok rest =>
                rw [heq] at h
                cases h
                cases hst with
                | head => exact List.filter_sublist _
                | tail _ hmem =>
                    exact (ih _ rest heq st hmem).trans (List.filter_sublist _)

/-- C7: plan compilation is deterministic — it depends only on the node
list (the registration order) and on which edges exist, not on the order
the edge set is iterated in; and ties are broken by registration order, in
that every stage of a compiled plan lists its systems as a sublist of the
registration order. -/
theorem compile_deterministic (g1 g2 : Graph)
    (hn : g1.nodes = g2.nodes)
    (he : ∀ e, e ∈ g1.edges ↔ e ∈ g2.edges) :
    compile g1 = compile g2 ∧
    (∀ stages, compile g1 = Except.ok stages → ∀ st ∈ stages, st.Sublist g1.nodes) := by
  constructor
  · unfold compile
    rw [hn, compileAux_congr g1 g2 he]
  · intro stages h st hst
    exact compileAux_stages_sublist g1 _ _ _ h st hst

/-- Witness for C7: the same three-system descriptor set with its two
edges listed in the two possible orders compiles to the same plan, and
that plan's stages respect registration order. -/
theorem compile_deterministic_witness :
    (Graph.mk [1, 2, 3] [(1, 2), (3, 2)]).nodes
      = (Graph.mk [1, 2, 3] [(3, 2), (1, 2)]).nodes ∧
    (∀ e, e ∈ (Graph.mk [1, 2, 3] [(1, 2), (3, 2)]).edges
        ↔ e ∈ (Graph.mk [1, 2, 3] [(3, 2), (1, 2)]).edges) ∧
    (compile (Graph.mk [1, 2, 3] [(1, 2), (3, 2)])
        = compile (Graph.mk [1, 2, 3] [(3, 2), (1, 2)]) ∧
      (∀ stages, compile (Graph.mk [1, 2, 3] [(1, 2), (3, 2)]) = Except.ok stages →
        ∀ st ∈ stages, st.Sublist (Graph.mk [1, 2, 3] [(1, 2), (3, 2)]).nodes)) :=
  ⟨rfl, fun e => by simp only [List.mem_cons, List.not_mem_nil, or_false]; tauto,
    compile_deterministic (Graph.mk [1, 2, 3] [(1, 2), (3, 2)])
      (Graph.mk [1, 2, 3] [(3, 2), (1, 2)]) rfl
      (fun e => by simp only [List.mem_cons, List.not_mem_nil, or_false]; tauto)⟩

end Theorems

end flecs
